import Mathlib

/-!
Verification of the wasi-provider pod lifecycle transitions of krustlet
(`Initializing::next` in `states/pod/initializing.rs` and `Completed::next`
in `states/pod/completed.rs`).

The two transition functions are embedded as pure Lean functions.  Every
external call they make (kube API get/patch, serde parsing, `set_input`,
`ArtifactManager` construction, artifact download/upload, and the nested
`run_to_completion` driver for an init container) is supplied as an oracle in
an environment record, so the embedding captures exactly the control flow of
the Rust source: which oracle outcomes lead to which `Transition`, in which
order side effects happen (recorded in an event trace), and how the mutable
`PodState` is updated.
-/

namespace Krustlet

/-- An artifact entry, as in `workflow_model::model::ArtifactRef`: the Rust
code uses one type both for the local descriptors declared in an invocation
or result and for the remote references returned by an upload. -/
structure ArtifactRef where
  name : String
  key : Option String := none
deriving Repr, DecidableEq

/-- `workflow_model::model::PluginInvocation`: the structured input payload. -/
structure PluginInvocation where
  workflow_name : String
  artifacts : List ArtifactRef
deriving Repr, DecidableEq

/-- The `outputs` field of a plugin result: the artifact list plus opaque
payload (collapsed to a string). -/
structure Outputs where
  artifacts : List ArtifactRef
  payload : String := ""
deriving Repr, DecidableEq

/-- `workflow_model::model::PluginResult`: the structured result read from the
working directory at `Completed`. -/
structure PluginResult where
  outputs : Outputs
  payload : String := ""
deriving Repr, DecidableEq

/-- An artifact repository configuration, parsed from
`artifact-repo-config.json` (opaque to the state machine). -/
structure RepoConfig where
  raw : String := ""
deriving Repr, DecidableEq

/-- An `ArtifactManager` handle, as produced by `ArtifactManager::try_new`. -/
structure ArtifactManager where
  config : RepoConfig
deriving Repr, DecidableEq

/-- A ConfigMap as the code reads it: an optional string-to-string `data`
section, modelled as an association list. -/
structure ConfigMap where
  data : Option (List (String × String))
deriving Repr, DecidableEq

/-- Lookup in a ConfigMap `data` section (`data.get(key)` on the map). -/
def lookupData (d : List (String × String)) (k : String) : Option String :=
  (d.find? (fun p => p.1 == k)).map Prod.snd

/-- One container of a pod manifest (only the name is relevant here). -/
structure Container where
  name : String
deriving Repr, DecidableEq

/-- The pod manifest snapshot: name, namespace and the ordered init
container list. -/
structure Pod where
  name : String
  namespaceName : String
  init_containers : List Container
deriving Repr, DecidableEq

/-- Modelled from the spec: `kubelet::backoff::ExponentialBackoffStrategy`
(crate `kubelet`, not under `src/`).  `reset` restores the initial delay and
`nextDelay` returns a capped exponential delay computed from the
consecutive-failure count, then increments that count. -/
structure BackoffStrategy where
  initialDelay : Nat
  cap : Nat
  failures : Nat
deriving Repr, DecidableEq

def BackoffStrategy.reset (b : BackoffStrategy) : BackoffStrategy :=
  { b with failures := 0 }

def BackoffStrategy.nextDelay (b : BackoffStrategy) : Nat × BackoffStrategy :=
  (min (b.initialDelay * 2 ^ b.failures) b.cap, { b with failures := b.failures + 1 })

/-- The mutable per-workload state (`PodState`), restricted to the fields the
two transitions touch: the workflow name, the optional `ArtifactManager`
handle, whether a telemetry parent context has been adopted, and the crash
loop backoff strategy. -/
structure PodState where
  workflow_name : Option String := none
  artifact_manager : Option ArtifactManager := none
  parent_context : Bool := false
  crash_loop_backoff_strategy : BackoffStrategy
deriving Repr, DecidableEq

/-- Modelled from the spec: the working-directory result read
(`WorkingDir::result` in crate `workflow_model`, not under `src/`).  Reading
`result.json` fails either because the file is missing or because it is
present but does not parse; both surface through the `Err` arm of
`result()`. -/
inductive ResultReadErr
  | fileMissing
  | parseFailure (msg : String)
deriving Repr, DecidableEq

/-- The fatal errors either transition can complete with, one constructor per
`return Transition::Complete(Err(..))` site in the source. -/
inductive PErr
  | deserOtel (msg : String)
  | deserInput (msg : String)
  | setInputFailed (msg : String)
  | deserRepoConfig (msg : String)
  | managerConstructFailed (msg : String)
  | downloadFailed (msg : String)
  | initContainerFailed (name : String)
  | resultReadFailed (e : ResultReadErr)
  | serializeFailed (msg : String)
  | uploadFailed (msg : String)
  | patchFailed (msg : String)
deriving Repr, DecidableEq

/-- The transition outcome of a pod state's `next`: advance to `Starting`,
complete successfully, or complete with a fatal error. -/
inductive Transition
  | nextStarting
  | completeOk
  | completeErr (e : PErr)
deriving Repr, DecidableEq

/-- A JSON-patch operation, as in `json_patch::PatchOperation`. -/
inductive PatchOp
  | replace (path : String) (value : String)
deriving Repr, DecidableEq

/-- Observable side effects of a transition, in chronological order. -/
inductive Event
  | backoffReset
  | parentContextSet
  | inputWritten (inv : PluginInvocation)
  | managerConstructed
  | downloadAttempt (name : String)
  | stepStarted (name : String)
  | stepCompleted (name : String)
  | uploadAttempt (name : String)
  | patchCall (ops : List PatchOp)
deriving Repr, DecidableEq

/-- The oracle environment for `Initializing::next`: outcomes of the kube
ConfigMap fetch, the three serde parses, `set_input`,
`ArtifactManager::try_new`, each artifact download, and each init container's
nested `run_to_completion` driver (`true` = the driver returned `Ok`). -/
structure InitEnv where
  getConfigMap : Except String ConfigMap
  parseOtel : String → Except String (Option (List (String × String)))
  parseInvocation : String → Except String PluginInvocation
  setInput : PluginInvocation → Except String Unit
  parseRepoConfig : String → Except String RepoConfig
  tryNewManager : RepoConfig → Except String ArtifactManager
  download : ArtifactManager → ArtifactRef → Except String Unit
  runStep : String → Bool

/-- `api.get(pod.name())` with `Err(_why) => None`: any fetch error collapses
to "no ConfigMap". -/
def configMapOf (env : InitEnv) : Option ConfigMap :=
  match env.getConfigMap with
  | .ok cm => some cm
  | .error _why => none

/-- The repeated `match &config_map { Some(cm) => match &cm.data { Some(data)
=> data.get(k), .. } .. }` pattern of the source. -/
def cmLookup (cm : Option ConfigMap) (k : String) : Option String :=
  match cm with
  | some cm =>
    match cm.data with
    | some data => lookupData data k
    | none => none
  | none => none

/-- Lines 59-71 of `initializing.rs`: look up and parse the
`opentelemetry.json` entry; a parse error is an early fatal return. -/
def otelStep (env : InitEnv) : Except PErr (Option (List (String × String))) :=
  match cmLookup (configMapOf env) "opentelemetry.json" with
  | some s =>
    match env.parseOtel s with
    | .ok o => .ok o
    | .error why => .error (PErr.deserOtel why)
  | none => .ok none

/-- The `for artifact in invocation.artifacts` download loop (lines 120-125):
sequential downloads, returning at the first failure. -/
def downloadAll (env : InitEnv) (am : ArtifactManager) :
    List ArtifactRef → Option PErr × List Event
  | [] => (none, [])
  | a :: rest =>
    match env.download am a with
    | .ok _ =>
      let r := downloadAll env am rest
      (r.1, Event.downloadAttempt a.name :: r.2)
    | .error why => (some (PErr.downloadFailed why), [Event.downloadAttempt a.name])

/-- Lines 100-129 of `initializing.rs`: the artifact block guarded by
`invocation.artifacts.len() > 0`.  The `ArtifactManager` is built from
`artifact-repo-config.json` (parse or construction failure is an early fatal
return); with a manager the artifacts are downloaded sequentially; without a
resolvable configuration a warning is logged and the phase proceeds. -/
def artifactDlPhase (env : InitEnv) (ps : PodState) (tr : List Event)
    (invocation : PluginInvocation) : Option PErr × PodState × List Event :=
  if 0 < invocation.artifacts.length then
    match cmLookup (configMapOf env) "artifact-repo-config.json" with
    | some cfgJson =>
      (match env.parseRepoConfig cfgJson with
       | .error why => (some (PErr.deserRepoConfig why), ps, tr)
       | .ok cfg =>
         match env.tryNewManager cfg with
         | .error why => (some (PErr.managerConstructFailed why), ps, tr)
         | .ok manager =>
           let r := downloadAll env manager invocation.artifacts
           (r.1, { ps with artifact_manager := some manager },
             tr ++ [Event.managerConstructed] ++ r.2))
    | none =>
      -- warn!("Workflow invocation has artifacts, but could not create ArtifactManager")
      (none, { ps with artifact_manager := none }, tr)
  else (none, ps, tr)

/-- Lines 77-130 of `initializing.rs`: read `input.json`, deserialize the
invocation (failure is an early fatal return), record the workflow name,
write the canonical input into the working directory, then handle the
artifact block. -/
def invocationPhase (env : InitEnv) (ps : PodState) (tr : List Event) :
    Option PErr × PodState × List Event :=
  match cmLookup (configMapOf env) "input.json" with
  | none => (none, ps, tr)
  | some input_json =>
    match env.parseInvocation input_json with
    | .error why => (some (PErr.deserInput why), ps, tr)
    | .ok invocation =>
      match env.setInput invocation with
      | .error why =>
        (some (PErr.setInputFailed why),
         { ps with workflow_name := some invocation.workflow_name }, tr)
      | .ok _ =>
        artifactDlPhase env { ps with workflow_name := some invocation.workflow_name }
          (tr ++ [Event.inputWritten invocation]) invocation

/-- Lines 53-131 of `initializing.rs`: the ConfigMap / telemetry / invocation
/ artifact phase that precedes the init container loop.  Returns `some e` for
an early `Transition::Complete(Err(e))`, together with the `PodState` as
mutated so far and the event trace. -/
def initPhase (env : InitEnv) (ps : PodState) : Option PErr × PodState × List Event :=
  match otelStep env with
  | .error e => (some e, ps, [])
  | .ok (some _o) =>
    invocationPhase env { ps with parent_context := true } [Event.parentContextSet]
  | .ok none => invocationPhase env ps []

/-- Reset the crash loop backoff strategy inside a `PodState`. -/
def resetState (ps : PodState) : PodState :=
  { ps with crash_loop_backoff_strategy := ps.crash_loop_backoff_strategy.reset }

/-- Lines 133-176 of `initializing.rs`: the init container loop.  For each
init container in manifest order the backoff strategy is reset and a nested
driver is run to completion; the first failure aborts with an error naming
the container; after all succeed the backoff strategy is reset once more and
the pod advances to `Starting`. -/
def runInitLoop (rs : String → Bool) (ps : PodState) :
    List Container → Transition × PodState × List Event
  | [] => (Transition.nextStarting, resetState ps, [Event.backoffReset])
  | c :: rest =>
    let ps := resetState ps
    if rs c.name then
      let r := runInitLoop rs ps rest
      (r.1, r.2.1,
        Event.backoffReset :: Event.stepStarted c.name :: Event.stepCompleted c.name :: r.2.2)
    else
      (Transition.completeErr (PErr.initContainerFailed c.name), ps,
        [Event.backoffReset, Event.stepStarted c.name])

/-- `Initializing::next`: the initial phase followed by the init container
loop. -/
def initializingNext (env : InitEnv) (ps : PodState) (pod : Pod) :
    Transition × PodState × List Event :=
  match initPhase env ps with
  | (some e, ps1, tr) => (Transition.completeErr e, ps1, tr)
  | (none, ps1, tr) =>
    let r := runInitLoop env.runStep ps1 pod.init_containers
    (r.1, r.2.1, tr ++ r.2.2)

/-- The oracle environment for `Completed::next`: outcome of the working
directory result read, each artifact upload, `serde_json::to_string`, and the
ConfigMap patch call. -/
structure CompletedEnv where
  readResult : Except ResultReadErr PluginResult
  upload : ArtifactManager → String → ArtifactRef → Except String ArtifactRef
  serialize : PluginResult → Except String String
  patchResult : Except String Unit

/-- The `for artifact in &result.outputs.artifacts` upload loop (lines 35-43
of `completed.rs`): sequential uploads accumulating the returned remote
references, aborting at the first failure. -/
def uploadAll (env : CompletedEnv) (am : ArtifactManager) (wf : String) :
    List ArtifactRef → Except PErr (List ArtifactRef) × List Event
  | [] => (.ok [], [])
  | a :: rest =>
    match env.upload am wf a with
    | .ok aref =>
      let r := uploadAll env am wf rest
      (match r.1 with
       | .ok refs => .ok (aref :: refs)
       | .error e => .error e,
       Event.uploadAttempt a.name :: r.2)
    | .error why => (.error (PErr.uploadFailed why), [Event.uploadAttempt a.name])

/-- Replace a result's artifact list. -/
def withArtifacts (r : PluginResult) (l : List ArtifactRef) : PluginResult :=
  { r with outputs := { r.outputs with artifacts := l } }

/-- Lines 30-46 of `completed.rs`: if the result declares artifacts, either
drop them (manager or workflow name missing) or upload them sequentially and
substitute the returned references. -/
def artifactStep (env : CompletedEnv) (ps : PodState) (result0 : PluginResult) :
    Except PErr PluginResult × List Event :=
  if 0 < result0.outputs.artifacts.length then
    match ps.artifact_manager, ps.workflow_name with
    | some am, some wf =>
      let r := uploadAll env am wf result0.outputs.artifacts
      (match r.1 with
       | .ok refs => .ok (withArtifacts result0 refs)
       | .error e => .error e,
       r.2)
    | _, _ =>
      -- warn!("Result has .. artifacts but ArtifactManager or WorkflowName is not initialized")
      (.ok (withArtifacts result0 []), [])
  else (.ok result0, [])

/-- The outcome of `Completed::next`: the transition, the event trace, and
the result value the patch call carried (when a patch call was made). -/
structure CompletedOutcome where
  transition : Transition
  trace : List Event
  patched : Option PluginResult
deriving Repr, DecidableEq

/-- `Completed::next`: read the result (any read error is fatal), run the
artifact step, serialize, then issue exactly one JSON patch replacing
`/data/result.json`; a patch error is fatal, otherwise complete
successfully. -/
def completedNext (env : CompletedEnv) (ps : PodState) : CompletedOutcome :=
  match env.readResult with
  | .error why => ⟨Transition.completeErr (PErr.resultReadFailed why), [], none⟩
  | .ok result0 =>
    let a := artifactStep env ps result0
    match a.1 with
    | .error e => ⟨Transition.completeErr e, a.2, none⟩
    | .ok result =>
      match env.serialize result with
      | .error why => ⟨Transition.completeErr (PErr.serializeFailed why), a.2, none⟩
      | .ok s =>
        let evs := a.2 ++ [Event.patchCall [PatchOp.replace "/data/result.json" s]]
        match env.patchResult with
        | .ok _ => ⟨Transition.completeOk, evs, some result⟩
        | .error why => ⟨Transition.completeErr (PErr.patchFailed why), evs, some result⟩

/-- The init container names started in a trace, in order. -/
def startedSteps (tr : List Event) : List String :=
  tr.filterMap fun e =>
    match e with
    | Event.stepStarted n => some n
    | _ => none

/-- The artifact names whose download was attempted, in order. -/
def downloadAttempts (tr : List Event) : List String :=
  tr.filterMap fun e =>
    match e with
    | Event.downloadAttempt n => some n
    | _ => none

/-- The artifact names whose upload was attempted, in order. -/
def uploadAttempts (tr : List Event) : List String :=
  tr.filterMap fun e =>
    match e with
    | Event.uploadAttempt n => some n
    | _ => none

/-- The JSON patches issued in a trace, in order. -/
def patchCalls (tr : List Event) : List (List PatchOp) :=
  tr.filterMap fun e =>
    match e with
    | Event.patchCall ops => some ops
    | _ => none

/-- The trace fragment of one successfully completed init step. -/
def stepOkTrace (c : Container) : List Event :=
  [Event.backoffReset, Event.stepStarted c.name, Event.stepCompleted c.name]

/-- The Scenario A input payload of the spec,
`{"workflow_name":"wf1","artifacts":[]}`. -/
def scenarioAInput : String :=
  "\x7b\"workflow_name\":\"wf1\",\"artifacts\":[]\x7d"

/-! ## Concrete fixtures used to evaluate the model -/

def bo0 : BackoffStrategy := ⟨2, 32, 3⟩

/-- A fresh pod state, as at the start of `Initializing`. -/
def psInit : PodState := ⟨none, none, false, bo0⟩

def amFix : ArtifactManager := ⟨⟨"repo"⟩⟩

/-- A pod state that reached `Completed` with a manager and workflow name. -/
def psMgr : PodState := ⟨some "wf1", some amFix, false, bo0⟩

def podABC : Pod := ⟨"p", "ns", [⟨"a"⟩, ⟨"b"⟩, ⟨"c"⟩]⟩

def podNoInit : Pod := ⟨"p", "ns", []⟩

/-- An invocation declaring two artifacts. -/
def invArt : PluginInvocation := ⟨"wf1", [⟨"a1", none⟩, ⟨"a2", none⟩]⟩

def cmWithRepo : ConfigMap :=
  ⟨some [("input.json", "inv"), ("artifact-repo-config.json", "repo")]⟩

def cmNoRepo : ConfigMap := ⟨some [("input.json", "inv")]⟩

/-- ConfigMap fetch fails; init steps: only "a" succeeds. -/
def envFetchFail : InitEnv :=
  ⟨.error "connection refused", fun _ => .ok none, fun _ => .error "n/a",
   fun _ => .ok (), fun _ => .error "n/a", fun c => .ok ⟨c⟩,
   fun _ _ => .ok (), fun n => n == "a"⟩

/-- ConfigMap fetch fails; every init step succeeds. -/
def envStepsOk : InitEnv :=
  ⟨.error "no config record", fun _ => .ok none, fun _ => .error "n/a",
   fun _ => .ok (), fun _ => .error "n/a", fun c => .ok ⟨c⟩,
   fun _ _ => .ok (), fun _ => true⟩

/-- Scenario A: the ConfigMap carries the Scenario A input payload. -/
def envScenA : InitEnv :=
  ⟨.ok ⟨some [("input.json", scenarioAInput)]⟩, fun _ => .ok none,
   fun _ => .ok ⟨"wf1", []⟩,
   fun _ => .ok (), fun _ => .error "bad", fun c => .ok ⟨c⟩,
   fun _ _ => .ok (), fun _ => true⟩

/-- An input payload is present but does not deserialize. -/
def envBadInput : InitEnv :=
  ⟨.ok ⟨some [("input.json", "not json")]⟩, fun _ => .ok none,
   fun _ => .error "expected value", fun _ => .ok (),
   fun _ => .error "bad", fun c => .ok ⟨c⟩, fun _ _ => .ok (), fun _ => true⟩

/-- Artifacts declared; repository configuration present but unparsable. -/
def envRepoBadCfg : InitEnv :=
  ⟨.ok cmWithRepo, fun _ => .ok none, fun _ => .ok invArt, fun _ => .ok (),
   fun _ => .error "cfg unparsable", fun c => .ok ⟨c⟩, fun _ _ => .ok (), fun _ => true⟩

/-- Artifacts declared; repository configuration parses but the manager
construction fails. -/
def envRepoCtorFail : InitEnv :=
  ⟨.ok cmWithRepo, fun _ => .ok none, fun _ => .ok invArt, fun _ => .ok (),
   fun _ => .ok ⟨"r"⟩, fun _ => .error "ctor failed", fun _ _ => .ok (), fun _ => true⟩

/-- Artifacts declared; no repository configuration resolvable. -/
def envNoRepo : InitEnv :=
  ⟨.ok cmNoRepo, fun _ => .ok none, fun _ => .ok invArt, fun _ => .ok (),
   fun _ => .error "unused", fun c => .ok ⟨c⟩, fun _ _ => .ok (), fun _ => true⟩

/-- Artifacts declared; manager constructed; downloads succeed. -/
def envDlOk : InitEnv :=
  ⟨.ok cmWithRepo, fun _ => .ok none, fun _ => .ok invArt, fun _ => .ok (),
   fun _ => .ok ⟨"r"⟩, fun c => .ok ⟨c⟩, fun _ _ => .ok (), fun _ => true⟩

/-- Artifacts declared; manager constructed; the second download fails. -/
def envDlFail : InitEnv :=
  ⟨.ok cmWithRepo, fun _ => .ok none, fun _ => .ok invArt, fun _ => .ok (),
   fun _ => .ok ⟨"r"⟩, fun c => .ok ⟨c⟩,
   fun _ a => if a.name == "a1" then .ok () else .error "dl failed", fun _ => true⟩

/-- A result declaring two output artifacts. -/
def resArts : PluginResult := ⟨⟨[⟨"o1", none⟩, ⟨"o2", none⟩], ""⟩, ""⟩

/-- Completed environment: result read succeeds, every upload succeeds,
serialization and patch succeed. -/
def cenvOk : CompletedEnv :=
  ⟨.ok resArts, fun _ wf a => .ok ⟨a.name, some wf⟩, fun _ => .ok "ser", .ok ()⟩

/-- Completed environment: the second upload fails. -/
def cenvUpFail : CompletedEnv :=
  ⟨.ok resArts,
   fun _ wf a => if a.name == "o1" then .ok ⟨a.name, some wf⟩ else .error "upload failed",
   fun _ => .ok "ser", .ok ()⟩

/-- Completed environment: the patch call fails. -/
def cenvPatchFail : CompletedEnv :=
  ⟨.ok resArts, fun _ wf a => .ok ⟨a.name, some wf⟩, fun _ => .ok "ser",
   .error "patch conflict"⟩

/-- Completed environment: `result.json` is missing from the working
directory. -/
def cenvMissing : CompletedEnv :=
  ⟨.error ResultReadErr.fileMissing, fun _ _ a => .ok a, fun _ => .ok "ser", .ok ()⟩

/-! ## Helper lemmas about the loops -/

@[simp]
lemma resetState_idem (ps : PodState) : resetState (resetState ps) = resetState ps := rfl

lemma runInitLoop_allOk (rs : String → Bool) :
    ∀ (l : List Container) (ps : PodState), (∀ c ∈ l, rs c.name = true) →
      runInitLoop rs ps l =
        (Transition.nextStarting, resetState ps, l.flatMap stepOkTrace ++ [Event.backoffReset])
  | [], ps, _ => by simp [runInitLoop]
  | c :: rest, ps, h => by
    have hc : rs c.name = true := h c (by simp)
    have ih := runInitLoop_allOk rs rest (resetState ps) (fun d hd => h d (by simp [hd]))
    simp [runInitLoop, hc, ih, stepOkTrace]

lemma runInitLoop_firstFail (rs : String → Bool) :
    ∀ (l : List Container) (ps : PodState) (i : Nat) (hi : i < l.length),
      rs (l.get ⟨i, hi⟩).name = false →
      (∀ j (hj : j < l.length), j < i → rs (l.get ⟨j, hj⟩).name = true) →
      runInitLoop rs ps l =
        (Transition.completeErr (PErr.initContainerFailed (l.get ⟨i, hi⟩).name),
         resetState ps,
         (l.take i).flatMap stepOkTrace ++
           [Event.backoffReset, Event.stepStarted (l.get ⟨i, hi⟩).name])
  | [], _, i, hi, _, _ => absurd hi (by simp)
  | c :: rest, ps, 0, _, hfail, _ => by
    simp only [List.get] at hfail
    simp [runInitLoop, hfail]
  | c :: rest, ps, i + 1, hi, hfail, hok => by
    have hc : rs c.name = true := hok 0 (by simp) (by omega)
    have ih := runInitLoop_firstFail rs rest (resetState ps) i
      (by simpa using Nat.lt_of_succ_lt_succ hi)
      (by simpa using hfail)
      (fun j hj hji => by
        have := hok (j + 1) (by simpa using Nat.succ_lt_succ hj) (Nat.succ_lt_succ hji)
        simpa using this)
    simp [runInitLoop, hc, ih, stepOkTrace]

lemma downloadAll_allOk (env : InitEnv) (am : ArtifactManager) :
    ∀ (l : List ArtifactRef), (∀ a ∈ l, env.download am a = .ok ()) →
      downloadAll env am l = (none, l.map (fun a => Event.downloadAttempt a.name))
  | [], _ => by simp [downloadAll]
  | a :: rest, h => by
    have ha : env.download am a = .ok () := h a (by simp)
    have ih := downloadAll_allOk env am rest (fun b hb => h b (by simp [hb]))
    simp [downloadAll, ha, ih]

lemma downloadAll_firstFail (env : InitEnv) (am : ArtifactManager) :
    ∀ (l : List ArtifactRef) (i : Nat) (hi : i < l.length) (msg : String),
      env.download am (l.get ⟨i, hi⟩) = .error msg →
      (∀ j (hj : j < l.length), j < i → env.download am (l.get ⟨j, hj⟩) = .ok ()) →
      downloadAll env am l =
        (some (PErr.downloadFailed msg),
         ((l.take (i + 1)).map (fun a => Event.downloadAttempt a.name)))
  | [], i, hi, _, _, _ => absurd hi (by simp)
  | a :: rest, 0, _, msg, hfail, _ => by
    simp only [List.get] at hfail
    simp [downloadAll, hfail]
  | a :: rest, i + 1, hi, msg, hfail, hok => by
    have ha : env.download am a = .ok () := hok 0 (by simp) (by omega)
    have ih := downloadAll_firstFail env am rest i
      (by simpa using Nat.lt_of_succ_lt_succ hi) msg
      (by simpa using hfail)
      (fun j hj hji => by
        have := hok (j + 1) (by simpa using Nat.succ_lt_succ hj) (Nat.succ_lt_succ hji)
        simpa using this)
    simp [downloadAll, ha, ih]

lemma uploadAll_allOk (env : CompletedEnv) (am : ArtifactManager) (wf : String)
    (g : ArtifactRef → ArtifactRef) :
    ∀ (l : List ArtifactRef), (∀ a ∈ l, env.upload am wf a = .ok (g a)) →
      uploadAll env am wf l =
        (.ok (l.map g), l.map (fun a => Event.uploadAttempt a.name))
  | [], _ => by simp [uploadAll]
  | a :: rest, h => by
    have ha : env.upload am wf a = .ok (g a) := h a (by simp)
    have ih := uploadAll_allOk env am wf g rest (fun b hb => h b (by simp [hb]))
    simp [uploadAll, ha, ih]

lemma uploadAll_firstFail (env : CompletedEnv) (am : ArtifactManager) (wf : String) :
    ∀ (l : List ArtifactRef) (i : Nat) (hi : i < l.length) (msg : String),
      env.upload am wf (l.get ⟨i, hi⟩) = .error msg →
      (∀ j (hj : j < l.length), j < i → ∃ r, env.upload am wf (l.get ⟨j, hj⟩) = .ok r) →
      uploadAll env am wf l =
        (.error (PErr.uploadFailed msg),
         ((l.take (i + 1)).map (fun a => Event.uploadAttempt a.name)))
  | [], i, hi, _, _, _ => absurd hi (by simp)
  | a :: rest, 0, _, msg, hfail, _ => by
    simp only [List.get] at hfail
    simp [uploadAll, hfail]
  | a :: rest, i + 1, hi, msg, hfail, hok => by
    obtain ⟨r, hr⟩ := hok 0 (by simp) (by omega)
    have hr' : env.upload am wf a = .ok r := hr
    have ih := uploadAll_firstFail env am wf rest i
      (by simpa using Nat.lt_of_succ_lt_succ hi) msg
      (by simpa using hfail)
      (fun j hj hji => by
        obtain ⟨u, hu⟩ := hok (j + 1) (by simpa using Nat.succ_lt_succ hj) (Nat.succ_lt_succ hji)
        exact ⟨u, by simpa using hu⟩)
    simp [uploadAll, hr', ih]

/-! ## Trace characterization lemmas -/

lemma startedSteps_append (t1 t2 : List Event) :
    startedSteps (t1 ++ t2) = startedSteps t1 ++ startedSteps t2 :=
  List.filterMap_append t1 t2 _

lemma downloadAll_trace (env : InitEnv) (am : ArtifactManager) :
    ∀ (l : List ArtifactRef), ∀ e ∈ (downloadAll env am l).2, ∃ n, e = Event.downloadAttempt n
  | [] => by simp [downloadAll]
  | a :: rest => by
    intro e he
    cases h : env.download am a with
    | ok u =>
      simp only [downloadAll, h] at he
      rcases List.mem_cons.1 he with rfl | he'
      · exact ⟨a.name, rfl⟩
      · exact downloadAll_trace env am rest e he'
    | error m =>
      simp only [downloadAll, h] at he
      rcases List.mem_cons.1 he with rfl | he'
      · exact ⟨a.name, rfl⟩
      · simp at he'

lemma startedSteps_downloadAll (env : InitEnv) (am : ArtifactManager) (l : List ArtifactRef) :
    startedSteps (downloadAll env am l).2 = [] := by
  rw [startedSteps, List.filterMap_eq_nil_iff]
  intro e he
  obtain ⟨n, rfl⟩ := downloadAll_trace env am l e he
  rfl

lemma startedSteps_artifactDlPhase (env : InitEnv) (ps : PodState) (tr : List Event)
    (inv : PluginInvocation) :
    startedSteps (artifactDlPhase env ps tr inv).2.2 = startedSteps tr := by
  unfold artifactDlPhase
  split
  · split
    · split
      · rfl
      · split
        · rfl
        · show startedSteps (tr ++ [Event.managerConstructed] ++ _) = startedSteps tr
          rw [startedSteps_append, startedSteps_append, startedSteps_downloadAll]
          simp [startedSteps]
    · rfl
  · rfl

lemma startedSteps_invocationPhase (env : InitEnv) (ps : PodState) (tr : List Event) :
    startedSteps (invocationPhase env ps tr).2.2 = startedSteps tr := by
  unfold invocationPhase
  split
  · rfl
  · split
    · rfl
    · split
      · rfl
      · rw [startedSteps_artifactDlPhase, startedSteps_append]
        simp [startedSteps]

lemma initPhase_startedSteps (env : InitEnv) (ps : PodState) :
    startedSteps (initPhase env ps).2.2 = [] := by
  unfold initPhase
  split
  · rfl
  · rw [startedSteps_invocationPhase]; rfl
  · rw [startedSteps_invocationPhase]; rfl

lemma startedSteps_stepOkTrace (l : List Container) :
    startedSteps (l.flatMap stepOkTrace) = l.map Container.name := by
  induction l with
  | nil => rfl
  | cons c rest ih =>
    rw [List.flatMap_cons, startedSteps_append, ih]
    rfl

lemma downloadAttempts_append (t1 t2 : List Event) :
    downloadAttempts (t1 ++ t2) = downloadAttempts t1 ++ downloadAttempts t2 :=
  List.filterMap_append t1 t2 _

lemma uploadAttempts_append (t1 t2 : List Event) :
    uploadAttempts (t1 ++ t2) = uploadAttempts t1 ++ uploadAttempts t2 :=
  List.filterMap_append t1 t2 _

lemma patchCalls_append (t1 t2 : List Event) :
    patchCalls (t1 ++ t2) = patchCalls t1 ++ patchCalls t2 :=
  List.filterMap_append t1 t2 _

lemma downloadAttempts_ofMap (l : List ArtifactRef) :
    downloadAttempts (l.map (fun a => Event.downloadAttempt a.name)) =
      l.map ArtifactRef.name := by
  induction l with
  | nil => rfl
  | cons a rest ih =>
    simp only [List.map_cons]
    rw [show Event.downloadAttempt a.name :: rest.map (fun a => Event.downloadAttempt a.name) =
      [Event.downloadAttempt a.name] ++ rest.map (fun a => Event.downloadAttempt a.name) from rfl]
    rw [downloadAttempts_append, ih]
    rfl

lemma uploadAttempts_ofMap (l : List ArtifactRef) :
    uploadAttempts (l.map (fun a => Event.uploadAttempt a.name)) =
      l.map ArtifactRef.name := by
  induction l with
  | nil => rfl
  | cons a rest ih =>
    simp only [List.map_cons]
    rw [show Event.uploadAttempt a.name :: rest.map (fun a => Event.uploadAttempt a.name) =
      [Event.uploadAttempt a.name] ++ rest.map (fun a => Event.uploadAttempt a.name) from rfl]
    rw [uploadAttempts_append, ih]
    rfl

lemma uploadAll_trace (env : CompletedEnv) (am : ArtifactManager) (wf : String) :
    ∀ (l : List ArtifactRef), ∀ e ∈ (uploadAll env am wf l).2, ∃ n, e = Event.uploadAttempt n
  | [] => by simp [uploadAll]
  | a :: rest => by
    intro e he
    cases h : env.upload am wf a with
    | ok u =>
      simp only [uploadAll, h] at he
      rcases List.mem_cons.1 he with rfl | he'
      · exact ⟨a.name, rfl⟩
      · exact uploadAll_trace env am wf rest e he'
    | error m =>
      simp only [uploadAll, h] at he
      rcases List.mem_cons.1 he with rfl | he'
      · exact ⟨a.name, rfl⟩
      · simp at he'

lemma patchCalls_uploadAll (env : CompletedEnv) (am : ArtifactManager) (wf : String)
    (l : List ArtifactRef) : patchCalls (uploadAll env am wf l).2 = [] := by
  rw [patchCalls, List.filterMap_eq_nil_iff]
  intro e he
  obtain ⟨n, rfl⟩ := uploadAll_trace env am wf l e he
  rfl

lemma patchCalls_artifactStep (env : CompletedEnv) (ps : PodState) (r : PluginResult) :
    patchCalls (artifactStep env ps r).2 = [] := by
  unfold artifactStep
  split
  · split
    · exact patchCalls_uploadAll env _ _ r.outputs.artifacts
    · rfl
  · rfl

/-- `artifactStep` when the manager or the workflow name is missing: the
artifact list is dropped. -/
lemma artifactStep_drop (env : CompletedEnv) (ps : PodState) (r : PluginResult)
    (hart : 0 < r.outputs.artifacts.length)
    (h : ps.artifact_manager = none ∨ ps.workflow_name = none) :
    artifactStep env ps r = (.ok (withArtifacts r []), []) := by
  unfold artifactStep
  rw [if_pos hart]
  rcases h with h | h
  · rw [h]
  · rw [h]
    cases ps.artifact_manager <;> rfl

/-- `artifactStep` when both the manager and the workflow name are present:
the upload loop decides the outcome. -/
lemma artifactStep_upload (env : CompletedEnv) (ps : PodState) (r : PluginResult)
    (am : ArtifactManager) (wf : String) (hart : 0 < r.outputs.artifacts.length)
    (ham : ps.artifact_manager = some am) (hwf : ps.workflow_name = some wf) :
    artifactStep env ps r =
      (match (uploadAll env am wf r.outputs.artifacts).1 with
       | .ok refs => .ok (withArtifacts r refs)
       | .error e => .error e,
       (uploadAll env am wf r.outputs.artifacts).2) := by
  unfold artifactStep
  rw [if_pos hart, ham, hwf]

lemma initializingNext_err (env : InitEnv) (ps : PodState) (pod : Pod) (e : PErr)
    (psX : PodState) (trX : List Event) (h : initPhase env ps = (some e, psX, trX)) :
    initializingNext env ps pod = (Transition.completeErr e, psX, trX) := by
  unfold initializingNext
  rw [h]

lemma initializingNext_ok (env : InitEnv) (ps : PodState) (pod : Pod)
    (psX : PodState) (trX : List Event) (h : initPhase env ps = (none, psX, trX)) :
    initializingNext env ps pod =
      ((runInitLoop env.runStep psX pod.init_containers).1,
       (runInitLoop env.runStep psX pod.init_containers).2.1,
       trX ++ (runInitLoop env.runStep psX pod.init_containers).2.2) := by
  unfold initializingNext
  rw [h]

lemma runInitLoop_manager (rs : String → Bool) :
    ∀ (l : List Container) (ps : PodState),
      (((runInitLoop rs ps l).2.1).artifact_manager = ps.artifact_manager) ∧
      (((runInitLoop rs ps l).2.1).workflow_name = ps.workflow_name)
  | [], ps => by simp [runInitLoop, resetState]
  | c :: rest, ps => by
    by_cases h : rs c.name
    · have ih := runInitLoop_manager rs rest (resetState ps)
      simp only [runInitLoop, h, if_true]
      exact ⟨ih.1, ih.2⟩
    · simp [runInitLoop, h, resetState]

lemma artifactDlPhase_manager (env : InitEnv) (ps : PodState) (tr : List Event)
    (inv : PluginInvocation) :
    ((artifactDlPhase env ps tr inv).2.1).artifact_manager = ps.artifact_manager ∨
    0 < inv.artifacts.length := by
  unfold artifactDlPhase
  split
  · right; assumption
  · left; rfl

lemma invocationPhase_manager (env : InitEnv) (ps : PodState) (tr : List Event) :
    ((invocationPhase env ps tr).2.1).artifact_manager = ps.artifact_manager ∨
    ∃ s inv, cmLookup (configMapOf env) "input.json" = some s ∧
      env.parseInvocation s = .ok inv ∧ 0 < inv.artifacts.length := by
  unfold invocationPhase
  split
  · left; rfl
  · rename_i input_json hin
    split
    · left; rfl
    · rename_i invocation hp
      split
      · left; rfl
      · rcases artifactDlPhase_manager env
          { ps with workflow_name := some invocation.workflow_name }
          (tr ++ [Event.inputWritten invocation]) invocation with h | h
        · left; rw [h]
        · right; exact ⟨input_json, invocation, hin, hp, h⟩

lemma initPhase_manager (env : InitEnv) (ps : PodState) :
    ((initPhase env ps).2.1).artifact_manager = ps.artifact_manager ∨
    ∃ s inv, cmLookup (configMapOf env) "input.json" = some s ∧
      env.parseInvocation s = .ok inv ∧ 0 < inv.artifacts.length := by
  unfold initPhase
  split
  · left; rfl
  · rcases invocationPhase_manager env { ps with parent_context := true }
      [Event.parentContextSet] with h | h
    · left; rw [h]
    · right; exact h
  · exact invocationPhase_manager env ps []

/-- `initPhase` under an obtained invocation: what remains is the artifact
block applied to the updated state. -/
lemma initPhase_artifacts (env : InitEnv) (ps : PodState) (s : String)
    (inv : PluginInvocation) (hotel : otelStep env = .ok none)
    (hin : cmLookup (configMapOf env) "input.json" = some s)
    (hp : env.parseInvocation s = .ok inv)
    (hset : env.setInput inv = .ok ()) :
    initPhase env ps =
      artifactDlPhase env { ps with workflow_name := some inv.workflow_name }
        [Event.inputWritten inv] inv := by
  unfold initPhase
  rw [hotel]
  unfold invocationPhase
  simp only [hin, hp, hset, List.nil_append]

/-! ## Claim theorems -/

/-- Claim C10: every error returned by the ConfigMap fetch at the start of
`Initializing::next` — of any kind, not only record absence — is swallowed
and treated as "no configuration record": the pre-loop phase completes
without error, leaves the pod state untouched (no telemetry context, no
workflow name, no artifact manager) and emits no events, and the whole
transition reduces to the init container loop. -/
theorem config_fetch_error_swallowed (env : InitEnv) (ps : PodState) (pod : Pod)
    (e : String) (hf : env.getConfigMap = .error e) :
    initPhase env ps = (none, ps, []) ∧
    initializingNext env ps pod = runInitLoop env.runStep ps pod.init_containers := by
  have hcm : configMapOf env = none := by
    unfold configMapOf
    rw [hf]
  have h1 : initPhase env ps = (none, ps, []) := by
    unfold initPhase otelStep invocationPhase
    rw [hcm]
    rfl
  refine ⟨h1, ?_⟩
  rw [initializingNext_ok env ps pod ps [] h1, List.nil_append]

theorem config_fetch_error_swallowed_witness :
    initPhase envFetchFail psInit = (none, psInit, []) ∧
    initializingNext envFetchFail psInit podABC =
      runInitLoop envFetchFail.runStep psInit podABC.init_containers :=
  config_fetch_error_swallowed envFetchFail psInit podABC "connection refused" rfl

/-- Claim C7: if the input payload fails to deserialize into an invocation,
`Initializing::next` completes with a failure carrying the deserialization
error, without writing the input, constructing an `ArtifactManager`, or
starting any init step, and leaves the artifact manager untouched. -/
theorem input_deser_fatal (env : InitEnv) (ps : PodState) (pod : Pod)
    (o : Option (List (String × String))) (s msg : String)
    (hotel : otelStep env = .ok o)
    (hin : cmLookup (configMapOf env) "input.json" = some s)
    (hp : env.parseInvocation s = .error msg) :
    (initializingNext env ps pod).1 = Transition.completeErr (PErr.deserInput msg) ∧
    (∀ inv, Event.inputWritten inv ∉ (initializingNext env ps pod).2.2) ∧
    Event.managerConstructed ∉ (initializingNext env ps pod).2.2 ∧
    startedSteps (initializingNext env ps pod).2.2 = [] ∧
    ((initializingNext env ps pod).2.1).artifact_manager = ps.artifact_manager := by
  cases o with
  | none =>
    have h1 : initPhase env ps = (some (PErr.deserInput msg), ps, []) := by
      unfold initPhase
      rw [hotel]
      unfold invocationPhase
      simp only [hin, hp]
    rw [initializingNext_err env ps pod _ _ _ h1]
    simp [startedSteps]
  | some ov =>
    have h1 : initPhase env ps =
        (some (PErr.deserInput msg), { ps with parent_context := true },
         [Event.parentContextSet]) := by
      unfold initPhase
      rw [hotel]
      unfold invocationPhase
      simp only [hin, hp]
    rw [initializingNext_err env ps pod _ _ _ h1]
    simp [startedSteps]

theorem input_deser_fatal_witness :
    (initializingNext envBadInput psInit podABC).1 =
      Transition.completeErr (PErr.deserInput "expected value") ∧
    (∀ inv, Event.inputWritten inv ∉ (initializingNext envBadInput psInit podABC).2.2) ∧
    Event.managerConstructed ∉ (initializingNext envBadInput psInit podABC).2.2 ∧
    startedSteps (initializingNext envBadInput psInit podABC).2.2 = [] ∧
    ((initializingNext envBadInput psInit podABC).2.1).artifact_manager =
      psInit.artifact_manager :=
  input_deser_fatal envBadInput psInit podABC none "not json" "expected value" rfl rfl rfl

/-- Claim C1: for a pod whose manifest lists init containers `[s1..sn]`, the
init loop of `Initializing::next` runs one nested driver per step strictly
sequentially in manifest order (each step's `stepCompleted` precedes the next
step's `stepStarted` in the trace); if step `i` is the first whose driver
fails, the later steps never start and the transition completes with an
error naming step `i`. -/
theorem init_steps_fail_fast (env : InitEnv) (ps ps1 : PodState) (pod : Pod)
    (tr1 : List Event) (i : Nat) (hi : i < pod.init_containers.length)
    (hphase : initPhase env ps = (none, ps1, tr1))
    (hfail : env.runStep ((pod.init_containers.get ⟨i, hi⟩).name) = false)
    (hok : ∀ j (hj : j < pod.init_containers.length), j < i →
      env.runStep ((pod.init_containers.get ⟨j, hj⟩).name) = true) :
    initializingNext env ps pod =
      (Transition.completeErr
        (PErr.initContainerFailed ((pod.init_containers.get ⟨i, hi⟩).name)),
       resetState ps1,
       tr1 ++ ((pod.init_containers.take i).flatMap stepOkTrace ++
         [Event.backoffReset,
          Event.stepStarted ((pod.init_containers.get ⟨i, hi⟩).name)])) ∧
    startedSteps (initializingNext env ps pod).2.2 =
      (pod.init_containers.take (i + 1)).map Container.name := by
  have hloop := runInitLoop_firstFail env.runStep pod.init_containers ps1 i hi hfail hok
  have hmain : initializingNext env ps pod =
      (Transition.completeErr
        (PErr.initContainerFailed ((pod.init_containers.get ⟨i, hi⟩).name)),
       resetState ps1,
       tr1 ++ ((pod.init_containers.take i).flatMap stepOkTrace ++
         [Event.backoffReset,
          Event.stepStarted ((pod.init_containers.get ⟨i, hi⟩).name)])) := by
    rw [initializingNext_ok env ps pod ps1 tr1 hphase, hloop]
  refine ⟨hmain, ?_⟩
  rw [hmain]
  have htr1 : startedSteps tr1 = [] := by
    have h0 := initPhase_startedSteps env ps
    rw [hphase] at h0
    exact h0
  show startedSteps (tr1 ++ _) = _
  rw [startedSteps_append, htr1, startedSteps_append, startedSteps_stepOkTrace]
  rw [show startedSteps [Event.backoffReset,
      Event.stepStarted ((pod.init_containers.get ⟨i, hi⟩).name)] =
      [(pod.init_containers.get ⟨i, hi⟩).name] from rfl]
  rw [List.nil_append, List.take_succ, List.map_append, List.getElem?_eq_getElem hi]
  rfl

theorem init_steps_fail_fast_witness :
    initializingNext envFetchFail psInit podABC =
      (Transition.completeErr (PErr.initContainerFailed "b"), resetState psInit,
       [Event.backoffReset, Event.stepStarted "a", Event.stepCompleted "a",
        Event.backoffReset, Event.stepStarted "b"]) ∧
    startedSteps (initializingNext envFetchFail psInit podABC).2.2 = ["a", "b"] := by
  have h := init_steps_fail_fast envFetchFail psInit psInit podABC [] 1 (by decide)
    (by decide) (by decide) (by decide)
  exact h

/-- Claim C5: the crash loop backoff strategy is reset immediately before
each init step's nested driver starts, and once more after all init steps
have succeeded, before the transition advances to `Starting`; after a reset
the first delay requested equals the initial delay. -/
theorem backoff_reset_each_step (env : InitEnv) (ps ps1 : PodState) (pod : Pod)
    (tr1 : List Event) (b : BackoffStrategy)
    (hphase : initPhase env ps = (none, ps1, tr1))
    (hall : ∀ c ∈ pod.init_containers, env.runStep c.name = true)
    (hb : b.initialDelay ≤ b.cap) :
    initializingNext env ps pod =
      (Transition.nextStarting, resetState ps1,
       tr1 ++ (pod.init_containers.flatMap stepOkTrace ++ [Event.backoffReset])) ∧
    ((b.reset).nextDelay).1 = b.initialDelay := by
  have hloop := runInitLoop_allOk env.runStep pod.init_containers ps1 hall
  constructor
  · rw [initializingNext_ok env ps pod ps1 tr1 hphase, hloop]
  · unfold BackoffStrategy.reset BackoffStrategy.nextDelay
    simp only [pow_zero, mul_one]
    exact Nat.min_eq_left hb

theorem backoff_reset_each_step_witness :
    initializingNext envStepsOk psInit podABC =
      (Transition.nextStarting, resetState psInit,
       [Event.backoffReset, Event.stepStarted "a", Event.stepCompleted "a",
        Event.backoffReset, Event.stepStarted "b", Event.stepCompleted "b",
        Event.backoffReset, Event.stepStarted "c", Event.stepCompleted "c",
        Event.backoffReset]) ∧
    ((bo0.reset).nextDelay).1 = bo0.initialDelay := by
  have h := backoff_reset_each_step envStepsOk psInit psInit podABC [] bo0 rfl
    (by decide) (by decide)
  exact h

/-- Claim C8 (Scenario A): for a record carrying the input payload with
workflow name "wf1" and an empty artifact list, and an empty init container
list, `Initializing::next` sets the workflow name to "wf1", writes the
invocation as the canonical input, starts zero init steps, and advances to
`Starting`. -/
theorem scenario_a (env : InitEnv) (ps : PodState) (pod : Pod)
    (hotel : otelStep env = .ok none)
    (hin : cmLookup (configMapOf env) "input.json" = some scenarioAInput)
    (hp : env.parseInvocation scenarioAInput = .ok ⟨"wf1", []⟩)
    (hset : env.setInput ⟨"wf1", []⟩ = .ok ())
    (hinit : pod.init_containers = []) :
    (initializingNext env ps pod).1 = Transition.nextStarting ∧
    ((initializingNext env ps pod).2.1).workflow_name = some "wf1" ∧
    Event.inputWritten ⟨"wf1", []⟩ ∈ (initializingNext env ps pod).2.2 ∧
    startedSteps (initializingNext env ps pod).2.2 = [] := by
  have hphase : initPhase env ps =
      (none, { ps with workflow_name := some "wf1" },
       [Event.inputWritten ⟨"wf1", []⟩]) := by
    unfold initPhase
    rw [hotel]
    unfold invocationPhase
    simp only [hin, hp, hset]
    unfold artifactDlPhase
    simp
  rw [initializingNext_ok env ps pod _ _ hphase, hinit]
  simp [runInitLoop, startedSteps, resetState]

theorem scenario_a_witness :
    (initializingNext envScenA psInit podNoInit).1 = Transition.nextStarting ∧
    ((initializingNext envScenA psInit podNoInit).2.1).workflow_name = some "wf1" ∧
    Event.inputWritten ⟨"wf1", []⟩ ∈ (initializingNext envScenA psInit podNoInit).2.2 ∧
    startedSteps (initializingNext envScenA psInit podNoInit).2.2 = [] :=
  scenario_a envScenA psInit podNoInit rfl rfl rfl rfl rfl

/-- Claim C6: when the invocation declares artifacts: a repository
configuration that is present but unparsable, or that fails manager
construction, makes `Initializing::next` complete with failure; no
resolvable repository configuration yields a warning and the transition
proceeds without artifacts; with a constructed manager the artifacts are
downloaded one at a time in declaration order, the whole transition
completing with failure at the first download error. -/
theorem artifact_download_handling (env : InitEnv) (ps : PodState) (pod : Pod)
    (s : String) (inv : PluginInvocation)
    (hotel : otelStep env = .ok none)
    (hin : cmLookup (configMapOf env) "input.json" = some s)
    (hp : env.parseInvocation s = .ok inv)
    (hset : env.setInput inv = .ok ())
    (hart : 0 < inv.artifacts.length) :
    (∀ rc m, cmLookup (configMapOf env) "artifact-repo-config.json" = some rc →
      env.parseRepoConfig rc = .error m →
      (initializingNext env ps pod).1 =
        Transition.completeErr (PErr.deserRepoConfig m)) ∧
    (∀ rc cfg m, cmLookup (configMapOf env) "artifact-repo-config.json" = some rc →
      env.parseRepoConfig rc = .ok cfg → env.tryNewManager cfg = .error m →
      (initializingNext env ps pod).1 =
        Transition.completeErr (PErr.managerConstructFailed m)) ∧
    (cmLookup (configMapOf env) "artifact-repo-config.json" = none →
      (initPhase env ps).1 = none ∧
      ((initPhase env ps).2.1).artifact_manager = none ∧
      downloadAttempts (initPhase env ps).2.2 = [] ∧
      (initializingNext env ps pod).1 =
        (runInitLoop env.runStep (initPhase env ps).2.1 pod.init_containers).1) ∧
    (∀ rc cfg am, cmLookup (configMapOf env) "artifact-repo-config.json" = some rc →
      env.parseRepoConfig rc = .ok cfg → env.tryNewManager cfg = .ok am →
      ((∀ a ∈ inv.artifacts, env.download am a = .ok ()) →
        (initPhase env ps).1 = none ∧
        downloadAttempts (initPhase env ps).2.2 = inv.artifacts.map ArtifactRef.name) ∧
      (∀ i (hi2 : i < inv.artifacts.length) m,
        env.download am (inv.artifacts.get ⟨i, hi2⟩) = .error m →
        (∀ j (hj : j < inv.artifacts.length), j < i →
          env.download am (inv.artifacts.get ⟨j, hj⟩) = .ok ()) →
        (initializingNext env ps pod).1 =
          Transition.completeErr (PErr.downloadFailed m) ∧
        downloadAttempts (initPhase env ps).2.2 =
          (inv.artifacts.take (i + 1)).map ArtifactRef.name)) := by
  have hph := initPhase_artifacts env ps s inv hotel hin hp hset
  refine ⟨?_, ?_, ?_, ?_⟩
  · intro rc m hrc hm
    have h2 : initPhase env ps =
        (some (PErr.deserRepoConfig m),
         { ps with workflow_name := some inv.workflow_name },
         [Event.inputWritten inv]) := by
      rw [hph]
      unfold artifactDlPhase
      rw [if_pos hart, hrc]
      simp only [hm]
    rw [initializingNext_err env ps pod _ _ _ h2]
  · intro rc cfg m hrc hc hm
    have h2 : initPhase env ps =
        (some (PErr.managerConstructFailed m),
         { ps with workflow_name := some inv.workflow_name },
         [Event.inputWritten inv]) := by
      rw [hph]
      unfold artifactDlPhase
      rw [if_pos hart, hrc]
      simp only [hc, hm]
    rw [initializingNext_err env ps pod _ _ _ h2]
  · intro hrc
    have h2 : initPhase env ps =
        (none,
         { ps with workflow_name := some inv.workflow_name, artifact_manager := none },
         [Event.inputWritten inv]) := by
      rw [hph]
      unfold artifactDlPhase
      rw [if_pos hart, hrc]
    refine ⟨by rw [h2], by rw [h2], by rw [h2]; rfl, ?_⟩
    rw [initializingNext_ok env ps pod _ _ h2, h2]
  · intro rc cfg am hrc hc hm
    constructor
    · intro hall
      have hdl := downloadAll_allOk env am inv.artifacts hall
      have h2 : initPhase env ps =
          (none,
           { ps with workflow_name := some inv.workflow_name, artifact_manager := some am },
           [Event.inputWritten inv] ++ [Event.managerConstructed] ++
             inv.artifacts.map (fun a => Event.downloadAttempt a.name)) := by
        rw [hph]
        unfold artifactDlPhase
        rw [if_pos hart, hrc]
        simp only [hc, hm, hdl]
      refine ⟨by rw [h2], ?_⟩
      rw [h2]
      show downloadAttempts (_ ++ _) = _
      rw [downloadAttempts_append, downloadAttempts_append, downloadAttempts_ofMap]
      rfl
    · intro i hi2 m hif hjok
      have hdl := downloadAll_firstFail env am inv.artifacts i hi2 m hif hjok
      have h2 : initPhase env ps =
          (some (PErr.downloadFailed m),
           { ps with workflow_name := some inv.workflow_name, artifact_manager := some am },
           [Event.inputWritten inv] ++ [Event.managerConstructed] ++
             (inv.artifacts.take (i + 1)).map (fun a => Event.downloadAttempt a.name)) := by
        rw [hph]
        unfold artifactDlPhase
        rw [if_pos hart, hrc]
        simp only [hc, hm, hdl]
      refine ⟨?_, ?_⟩
      · rw [initializingNext_err env ps pod _ _ _ h2]
      · rw [h2]
        show downloadAttempts (_ ++ _) = _
        rw [downloadAttempts_append, downloadAttempts_append, downloadAttempts_ofMap]
        rfl

theorem artifact_download_handling_witness :
    (initializingNext envRepoBadCfg psInit podNoInit).1 =
      Transition.completeErr (PErr.deserRepoConfig "cfg unparsable") ∧
    (initializingNext envRepoCtorFail psInit podNoInit).1 =
      Transition.completeErr (PErr.managerConstructFailed "ctor failed") ∧
    ((initPhase envNoRepo psInit).1 = none ∧
      ((initPhase envNoRepo psInit).2.1).artifact_manager = none) ∧
    downloadAttempts (initPhase envDlOk psInit).2.2 = ["a1", "a2"] ∧
    ((initializingNext envDlFail psInit podNoInit).1 =
        Transition.completeErr (PErr.downloadFailed "dl failed") ∧
      downloadAttempts (initPhase envDlFail psInit).2.2 = ["a1", "a2"]) := by
  refine ⟨?_, ?_, ?_, ?_, ?_⟩
  · exact (artifact_download_handling envRepoBadCfg psInit podNoInit "inv" invArt
      rfl rfl rfl rfl (by decide)).1 "repo" "cfg unparsable" rfl rfl
  · exact (artifact_download_handling envRepoCtorFail psInit podNoInit "inv" invArt
      rfl rfl rfl rfl (by decide)).2.1 "repo" ⟨"r"⟩ "ctor failed" rfl rfl rfl
  · have h := (artifact_download_handling envNoRepo psInit podNoInit "inv" invArt
      rfl rfl rfl rfl (by decide)).2.2.1 rfl
    exact ⟨h.1, h.2.1⟩
  · have h := ((artifact_download_handling envDlOk psInit podNoInit "inv" invArt
      rfl rfl rfl rfl (by decide)).2.2.2 "repo" ⟨"r"⟩ ⟨⟨"r"⟩⟩ rfl rfl rfl).1
      (by intro a ha; rfl)
    exact h.2
  · have h := ((artifact_download_handling envDlFail psInit podNoInit "inv" invArt
      rfl rfl rfl rfl (by decide)).2.2.2 "repo" ⟨"r"⟩ ⟨⟨"r"⟩⟩ rfl rfl rfl).2
      1 (by decide) "dl failed" rfl
      (by
        intro j hj hji
        have hj0 : j = 0 := by omega
        subst hj0
        rfl)
    exact h

/-- Claim C2: at `Completed`, when the result declares artifacts: if the
artifact manager or the workflow name is missing, the artifact list is
replaced by the empty list and processing continues to a successful patch;
otherwise each artifact is uploaded sequentially in list order and the local
descriptors are replaced by the returned remote references in the same
order, and the transition completes with failure at the first upload error,
with no further uploads attempted. -/
theorem completed_artifact_handling (env : CompletedEnv) (ps : PodState)
    (r : PluginResult) (hr : env.readResult = .ok r)
    (hart : 0 < r.outputs.artifacts.length) :
    ((ps.artifact_manager = none ∨ ps.workflow_name = none) →
      ∀ s, env.serialize (withArtifacts r []) = .ok s → env.patchResult = .ok () →
      (completedNext env ps).transition = Transition.completeOk ∧
      (completedNext env ps).patched = some (withArtifacts r []) ∧
      uploadAttempts (completedNext env ps).trace = []) ∧
    (∀ am wf (g : ArtifactRef → ArtifactRef), ps.artifact_manager = some am →
      ps.workflow_name = some wf →
      (∀ a ∈ r.outputs.artifacts, env.upload am wf a = .ok (g a)) →
      (artifactStep env ps r).1 = .ok (withArtifacts r (r.outputs.artifacts.map g)) ∧
      uploadAttempts (artifactStep env ps r).2 =
        r.outputs.artifacts.map ArtifactRef.name) ∧
    (∀ am wf i (hi : i < r.outputs.artifacts.length) m, ps.artifact_manager = some am →
      ps.workflow_name = some wf →
      env.upload am wf (r.outputs.artifacts.get ⟨i, hi⟩) = .error m →
      (∀ j (hj : j < r.outputs.artifacts.length), j < i →
        ∃ u, env.upload am wf (r.outputs.artifacts.get ⟨j, hj⟩) = .ok u) →
      (completedNext env ps).transition = Transition.completeErr (PErr.uploadFailed m) ∧
      uploadAttempts (completedNext env ps).trace =
        (r.outputs.artifacts.take (i + 1)).map ArtifactRef.name) := by
  refine ⟨?_, ?_, ?_⟩
  · intro h s hs hpatch
    have hstep := artifactStep_drop env ps r hart h
    have hcn : completedNext env ps =
        ⟨Transition.completeOk,
         [] ++ [Event.patchCall [PatchOp.replace "/data/result.json" s]],
         some (withArtifacts r [])⟩ := by
      unfold completedNext
      rw [hr]
      simp only [hstep, hs, hpatch]
    rw [hcn]
    exact ⟨rfl, rfl, rfl⟩
  · intro am wf g ham hwf hups
    have hup := uploadAll_allOk env am wf g r.outputs.artifacts hups
    have hstep := artifactStep_upload env ps r am wf hart ham hwf
    refine ⟨?_, ?_⟩
    · rw [hstep, hup]
    · rw [hstep, hup]
      exact uploadAttempts_ofMap _
  · intro am wf i hi m ham hwf hif hjok
    have hup := uploadAll_firstFail env am wf r.outputs.artifacts i hi m hif hjok
    have hstep := artifactStep_upload env ps r am wf hart ham hwf
    have hcn : completedNext env ps =
        ⟨Transition.completeErr (PErr.uploadFailed m),
         (r.outputs.artifacts.take (i + 1)).map (fun a => Event.uploadAttempt a.name),
         none⟩ := by
      unfold completedNext
      rw [hr]
      simp only [hstep, hup]
    rw [hcn]
    exact ⟨rfl, uploadAttempts_ofMap _⟩

theorem completed_artifact_handling_witness :
    ((completedNext cenvOk psInit).transition = Transition.completeOk ∧
      (completedNext cenvOk psInit).patched = some (withArtifacts resArts []) ∧
      uploadAttempts (completedNext cenvOk psInit).trace = []) ∧
    ((artifactStep cenvOk psMgr resArts).1 =
        .ok (withArtifacts resArts [⟨"o1", some "wf1"⟩, ⟨"o2", some "wf1"⟩]) ∧
      uploadAttempts (artifactStep cenvOk psMgr resArts).2 = ["o1", "o2"]) ∧
    ((completedNext cenvUpFail psMgr).transition =
        Transition.completeErr (PErr.uploadFailed "upload failed") ∧
      uploadAttempts (completedNext cenvUpFail psMgr).trace = ["o1", "o2"]) := by
  refine ⟨?_, ?_, ?_⟩
  · exact (completed_artifact_handling cenvOk psInit resArts rfl (by decide)).1
      (Or.inl rfl) "ser" rfl rfl
  · have h := (completed_artifact_handling cenvOk psMgr resArts rfl (by decide)).2.1
      amFix "wf1" (fun a => ⟨a.name, some "wf1"⟩) rfl rfl (by intro a ha; rfl)
    exact h
  · have h := (completed_artifact_handling cenvUpFail psMgr resArts rfl (by decide)).2.2
      amFix "wf1" 1 (by decide) "upload failed" rfl rfl rfl
      (by
        intro j hj hji
        have hj0 : j = 0 := by omega
        subst hj0
        exact ⟨⟨"o1", some "wf1"⟩, rfl⟩)
    exact h

/-- Claim C4: when `Completed::next` reaches the patch step it issues exactly
one JSON patch, a single replace operation targeting `/data/result.json`
whose value is the serialized result; if the patch call fails the transition
completes with that error and the patch is not retried, and if it succeeds
the transition completes successfully. -/
theorem completed_patch_protocol (env : CompletedEnv) (ps : PodState)
    (r result : PluginResult) (s : String)
    (hr : env.readResult = .ok r)
    (ha : (artifactStep env ps r).1 = .ok result)
    (hs : env.serialize result = .ok s) :
    patchCalls (completedNext env ps).trace =
      [[PatchOp.replace "/data/result.json" s]] ∧
    (env.patchResult = .ok () →
      (completedNext env ps).transition = Transition.completeOk) ∧
    (∀ m, env.patchResult = .error m →
      (completedNext env ps).transition =
        Transition.completeErr (PErr.patchFailed m)) := by
  have hpc := patchCalls_artifactStep env ps r
  cases hp : env.patchResult with
  | ok u =>
    have hcn : completedNext env ps =
        ⟨Transition.completeOk,
         (artifactStep env ps r).2 ++
           [Event.patchCall [PatchOp.replace "/data/result.json" s]],
         some result⟩ := by
      unfold completedNext
      rw [hr]
      simp only [ha, hs, hp]
    rw [hcn]
    refine ⟨?_, fun _ => rfl, fun m hm => by cases hm⟩
    rw [patchCalls_append, hpc]
    rfl
  | error m0 =>
    have hcn : completedNext env ps =
        ⟨Transition.completeErr (PErr.patchFailed m0),
         (artifactStep env ps r).2 ++
           [Event.patchCall [PatchOp.replace "/data/result.json" s]],
         some result⟩ := by
      unfold completedNext
      rw [hr]
      simp only [ha, hs, hp]
    rw [hcn]
    refine ⟨?_, ?_, ?_⟩
    · rw [patchCalls_append, hpc]
      rfl
    · intro hok
      cases hok
    · intro m hm
      injection hm with he
      subst he
      rfl

theorem completed_patch_protocol_witness :
    patchCalls (completedNext cenvOk psInit).trace =
      [[PatchOp.replace "/data/result.json" "ser"]] ∧
    (completedNext cenvOk psInit).transition = Transition.completeOk ∧
    (completedNext cenvPatchFail psMgr).transition =
      Transition.completeErr (PErr.patchFailed "patch conflict") := by
  have h1 := completed_patch_protocol cenvOk psInit resArts (withArtifacts resArts [])
    "ser" rfl rfl rfl
  have h2 := completed_patch_protocol cenvPatchFail psMgr resArts
    (withArtifacts resArts [⟨"o1", some "wf1"⟩, ⟨"o2", some "wf1"⟩]) "ser" rfl rfl rfl
  exact ⟨h1.1, h1.2.1 rfl, h2.2.2 "patch conflict" rfl⟩

/-- Claim C3 counterexample: with `result.json` missing from the working
directory, `Completed::next` does not complete successfully without a patch;
it completes with a failure carrying the read error, and no patch call is
made. -/
theorem missing_result_counterexample :
    (completedNext cenvMissing psMgr).transition =
      Transition.completeErr (PErr.resultReadFailed ResultReadErr.fileMissing) ∧
    patchCalls (completedNext cenvMissing psMgr).trace = [] ∧
    ¬ (completedNext cenvMissing psMgr).transition = Transition.completeOk := by
  decide

/-- Claim C3 (amended): a missing `result.json` is not a distinct "no
result" success case — every result-read error, whether the file is missing
or present but corrupt, makes `Completed::next` complete with failure, and
no patch is applied. -/
theorem result_read_error_fatal (env : CompletedEnv) (ps : PodState)
    (e : ResultReadErr) (h : env.readResult = .error e) :
    (completedNext env ps).transition =
      Transition.completeErr (PErr.resultReadFailed e) ∧
    patchCalls (completedNext env ps).trace = [] := by
  have hcn : completedNext env ps =
      ⟨Transition.completeErr (PErr.resultReadFailed e), [], none⟩ := by
    unfold completedNext
    rw [h]
  rw [hcn]
  exact ⟨rfl, rfl⟩

theorem result_read_error_fatal_witness :
    (completedNext cenvMissing psInit).transition =
      Transition.completeErr (PErr.resultReadFailed ResultReadErr.fileMissing) ∧
    patchCalls (completedNext cenvMissing psInit).trace = [] :=
  result_read_error_fatal cenvMissing psInit ResultReadErr.fileMissing rfl

/-- Claim C9: an `ArtifactManager` is constructed during `Initializing` only
when the deserialized invocation declares at least one artifact; a workload
whose input payload is absent or whose invocation declares no artifacts
keeps no manager, and at `Completed` a result that declares artifacts is
then patched with an empty artifact list instead of uploading. -/
theorem manager_only_with_artifacts (env : InitEnv) (ps : PodState) (pod : Pod)
    (cenv : CompletedEnv) (r : PluginResult) :
    (ps.artifact_manager = none →
      (cmLookup (configMapOf env) "input.json" = none ∨
       ∃ s inv, cmLookup (configMapOf env) "input.json" = some s ∧
         env.parseInvocation s = .ok inv ∧ inv.artifacts = []) →
      ((initializingNext env ps pod).2.1).artifact_manager = none) ∧
    (((initializingNext env ps pod).2.1).artifact_manager ≠ ps.artifact_manager →
      ∃ s inv, cmLookup (configMapOf env) "input.json" = some s ∧
        env.parseInvocation s = .ok inv ∧ 0 < inv.artifacts.length) ∧
    (ps.artifact_manager = none → cenv.readResult = .ok r →
      0 < r.outputs.artifacts.length →
      (artifactStep cenv ps r).1 = .ok (withArtifacts r []) ∧
      uploadAttempts (completedNext cenv ps).trace = [] ∧
      (∀ s, cenv.serialize (withArtifacts r []) = .ok s → cenv.patchResult = .ok () →
        (completedNext cenv ps).transition = Transition.completeOk)) := by
  refine ⟨?_, ?_, ?_⟩
  · intro hm hcase
    have hpres : ((initPhase env ps).2.1).artifact_manager = ps.artifact_manager := by
      rcases initPhase_manager env ps with h | ⟨s, inv, hins, hpinv, hlen⟩
      · exact h
      · exfalso
        rcases hcase with hnone | ⟨s', inv', hs', hp', hempty⟩
        · rw [hnone] at hins
          cases hins
        · rw [hs'] at hins
          injection hins with he
          subst he
          rw [hp'] at hpinv
          injection hpinv with he2
          subst he2
          rw [hempty] at hlen
          simp at hlen
    rcases hph : initPhase env ps with ⟨oe, psX, trX⟩
    have hX : psX.artifact_manager = ps.artifact_manager := by
      rw [hph] at hpres
      exact hpres
    cases oe with
    | none =>
      rw [initializingNext_ok env ps pod psX trX hph]
      have hl := (runInitLoop_manager env.runStep pod.init_containers psX).1
      show ((runInitLoop env.runStep psX pod.init_containers).2.1).artifact_manager = none
      rw [hl, hX, hm]
    | some e =>
      rw [initializingNext_err env ps pod e psX trX hph]
      show psX.artifact_manager = none
      rw [hX, hm]
  · intro hchg
    rcases initPhase_manager env ps with h | hex
    · exfalso
      apply hchg
      rcases hph : initPhase env ps with ⟨oe, psX, trX⟩
      have hX : psX.artifact_manager = ps.artifact_manager := by
        rw [hph] at h
        exact h
      cases oe with
      | none =>
        rw [initializingNext_ok env ps pod psX trX hph]
        have hl := (runInitLoop_manager env.runStep pod.init_containers psX).1
        show ((runInitLoop env.runStep psX pod.init_containers).2.1).artifact_manager = _
        rw [hl, hX]
      | some e =>
        rw [initializingNext_err env ps pod e psX trX hph]
        exact hX
    · exact hex
  · intro hm hrr hart
    have hstep := artifactStep_drop cenv ps r hart (Or.inl hm)
    refine ⟨by rw [hstep], ?_, ?_⟩
    · cases hs : cenv.serialize (withArtifacts r []) with
      | error m =>
        have hcn : completedNext cenv ps =
            ⟨Transition.completeErr (PErr.serializeFailed m), [], none⟩ := by
          unfold completedNext
          rw [hrr]
          simp only [hstep, hs]
        rw [hcn]
        rfl
      | ok s =>
        cases hpr : cenv.patchResult with
        | ok u =>
          have hcn : completedNext cenv ps =
              ⟨Transition.completeOk,
               [] ++ [Event.patchCall [PatchOp.replace "/data/result.json" s]],
               some (withArtifacts r [])⟩ := by
            unfold completedNext
            rw [hrr]
            simp only [hstep, hs, hpr]
          rw [hcn]
          rfl
        | error m =>
          have hcn : completedNext cenv ps =
              ⟨Transition.completeErr (PErr.patchFailed m),
               [] ++ [Event.patchCall [PatchOp.replace "/data/result.json" s]],
               some (withArtifacts r [])⟩ := by
            unfold completedNext
            rw [hrr]
            simp only [hstep, hs, hpr]
          rw [hcn]
          rfl
    · intro s hs hpr
      have hcn : completedNext cenv ps =
          ⟨Transition.completeOk,
           [] ++ [Event.patchCall [PatchOp.replace "/data/result.json" s]],
           some (withArtifacts r [])⟩ := by
        unfold completedNext
        rw [hrr]
        simp only [hstep, hs, hpr]
      rw [hcn]

theorem manager_only_with_artifacts_witness :
    ((initializingNext envFetchFail psInit podABC).2.1).artifact_manager = none ∧
    (artifactStep cenvOk psInit resArts).1 = .ok (withArtifacts resArts []) ∧
    (completedNext cenvOk psInit).transition = Transition.completeOk := by
  have h := manager_only_with_artifacts envFetchFail psInit podABC cenvOk resArts
  refine ⟨h.1 rfl (Or.inl rfl), ?_, ?_⟩
  · exact (h.2.2 rfl rfl (by decide)).1
  · exact (h.2.2 rfl rfl (by decide)).2.2 "ser" rfl rfl

end Krustlet
